import Mathlib

/-!
# Verification of the violence-detection training pipeline (`src/train.py`)

Shallow embedding of the pure data-flow of `src/train.py`:

* `find_optimal_threshold` (threshold optimisation over the ROC curve),
* `load_mmpose_data` (corpus assembly from MMPose JSON files),
* the two-stage `train_test_split` performed by `main`,
* the metric-accumulation of `train_model`.

Modelling conventions:

* Python floats carrying scores/labels/ratios are modelled as exact rationals
  `ℚ`; a float `NaN` produced by a 0/0 division is modelled as `none : Option ℚ`;
  the `np.inf` sentinel threshold prepended by `sklearn.metrics.roc_curve` is
  modelled as `⊤ : WithTop ℚ`.
* Fallible code (a Python `raise`) is modelled with `Except String`.
* Code external to `src/train.py` (the GNN builder `create_pose_graph` from
  `gnn.py`, the model forward/backward passes) is opaque to `train.py`; it is
  modelled by universally quantified function parameters, so every theorem
  holds for any behaviour of those collaborators.
-/

namespace ViolenceDetection

/-- Decidable equality for `Except`, used to evaluate the embedding on
concrete inputs. -/
instance {ε α : Type _} [DecidableEq ε] [DecidableEq α] : DecidableEq (Except ε α) := fun x y =>
  match x, y with
  | .ok a, .ok b => decidable_of_iff (a = b) (by simp)
  | .ok _, .error _ => isFalse (fun h => Except.noConfusion h)
  | .error _, .ok _ => isFalse (fun h => Except.noConfusion h)
  | .error e, .error f => decidable_of_iff (e = f) (by simp)

/-! ## Threshold optimisation (`find_optimal_threshold`, train.py lines 73–143)

The input is the list of `(score, label)` pairs handed to
`find_optimal_threshold(y_true, y_score)`; `true` is the positive (violent)
class. -/

/-- Number of positive labels (`tps[-1]` in sklearn's `roc_curve`). -/
def totPos (ys : List (ℚ × Bool)) : ℕ := (ys.filter (fun p => p.2)).length

/-- Number of negative labels (`fps[-1]` in sklearn's `roc_curve`). -/
def totNeg (ys : List (ℚ × Bool)) : ℕ := (ys.filter (fun p => !p.2)).length

/-- Insert a score into a strictly-descending list of distinct scores,
keeping it strictly descending (duplicates are dropped). -/
def insertScore (x : ℚ) : List ℚ → List ℚ
  | [] => [x]
  | y :: ys => if y < x then x :: y :: ys else if x = y then y :: ys else y :: insertScore x ys

/-- The distinct score values in decreasing order: the thresholds of
`sklearn.metrics.roc_curve` before the sentinel is prepended. -/
def sortedScores (ys : List (ℚ × Bool)) : List ℚ :=
  ys.foldr (fun p acc => insertScore p.1 acc) []

/-- The threshold list of `roc_curve(y_true, y_score)`: the sentinel `np.inf`
(modelled `⊤`) followed by the distinct scores in decreasing order.
`drop_intermediate=True` (which removes collinear interior ROC points) is not
modelled: along a straight ROC segment TPR−FPR is affine, so the first index
attaining the maximal Youden J is never a dropped interior point, and all
properties stated below are unaffected. -/
def rocThresholds (ys : List (ℚ × Bool)) : List (WithTop ℚ) :=
  ⊤ :: (sortedScores ys).map (fun v => (v : WithTop ℚ))

/-- True positives of the classifier `score ≥ t` (sklearn's cumulative `tps`). -/
def tpAt (ys : List (ℚ × Bool)) (t : WithTop ℚ) : ℕ :=
  (ys.filter (fun p => p.2 && decide ((p.1 : WithTop ℚ) ≥ t))).length

/-- False positives of the classifier `score ≥ t` (sklearn's cumulative `fps`). -/
def fpAt (ys : List (ℚ × Bool)) (t : WithTop ℚ) : ℕ :=
  (ys.filter (fun p => !p.2 && decide ((p.1 : WithTop ℚ) ≥ t))).length

/-- False negatives at threshold `t` (the `fn` cell of the confusion matrix). -/
def fnAt (ys : List (ℚ × Bool)) (t : WithTop ℚ) : ℕ := totPos ys - tpAt ys t

/-- True negatives at threshold `t` (the `tn` cell of the confusion matrix). -/
def tnAt (ys : List (ℚ × Bool)) (t : WithTop ℚ) : ℕ := totNeg ys - fpAt ys t

/-- `tpr` entry of `roc_curve`: `tps / tps[-1]`; the 0/0 NaN produced when no
positive label exists is `none`. -/
def tprAt (ys : List (ℚ × Bool)) (t : WithTop ℚ) : Option ℚ :=
  if totPos ys = 0 then none else some ((tpAt ys t : ℚ) / (totPos ys : ℚ))

/-- `fpr` entry of `roc_curve`: `fps / fps[-1]`; NaN (no negative label) is `none`. -/
def fprAt (ys : List (ℚ × Bool)) (t : WithTop ℚ) : Option ℚ :=
  if totNeg ys = 0 then none else some ((fpAt ys t : ℚ) / (totNeg ys : ℚ))

/-- One entry of `j_scores = tpr - fpr` (train.py line 97); NaN propagates. -/
def jAt (ys : List (ℚ × Bool)) (t : WithTop ℚ) : Option ℚ := do
  let a ← tprAt ys t
  let b ← fprAt ys t
  pure (a - b)

/-- One entry of `distances = sqrt((1 - tpr)**2 + fpr**2)` (train.py line 102),
with the square root omitted: it is strictly monotone on the non-negative
reals, so `np.argmin` over the squared distances picks the same index, and NaN
propagates through `sqrt` exactly as through the sum of squares. -/
def distSqAt (ys : List (ℚ × Bool)) (t : WithTop ℚ) : Option ℚ := do
  let a ← tprAt ys t
  let b ← fprAt ys t
  pure ((1 - a) ^ 2 + b ^ 2)

/-- The TPR as a plain rational (only meaningful when a positive label exists). -/
def tprQ (ys : List (ℚ × Bool)) (t : WithTop ℚ) : ℚ := (tpAt ys t : ℚ) / (totPos ys : ℚ)

/-- The FPR as a plain rational (only meaningful when a negative label exists). -/
def fprQ (ys : List (ℚ × Bool)) (t : WithTop ℚ) : ℚ := (fpAt ys t : ℚ) / (totNeg ys : ℚ)

/-- Youden's J = TPR − FPR as a plain rational (meaningful when both classes occur). -/
def jQ (ys : List (ℚ × Bool)) (t : WithTop ℚ) : ℚ := tprQ ys t - fprQ ys t

/-- `np.argmax` over floats that are not NaN: the index of the first occurrence
of the maximum (`numpy` documents first-occurrence tie-breaking); `l.length`
for an empty list (unused case). -/
def npArgmax (l : List ℚ) : ℕ := l.findIdx (fun x => l.all (fun y => y ≤ x))

/-- `np.argmin` over floats that are not NaN: first occurrence of the minimum. -/
def npArgmin (l : List ℚ) : ℕ := l.findIdx (fun x => l.all (fun y => x ≤ y))

/-- `np.argmax` over floats that may contain NaN (`none`): numpy propagates
NaN, returning the index of the first NaN when one is present. -/
def npArgmaxN (l : List (Option ℚ)) : ℕ :=
  match l.findIdx? (fun x => x.isNone) with
  | some i => i
  | none => npArgmax (l.map (fun x => x.getD 0))

/-- `np.argmin` over floats that may contain NaN: first NaN index when present. -/
def npArgminN (l : List (Option ℚ)) : ℕ :=
  match l.findIdx? (fun x => x.isNone) with
  | some i => i
  | none => npArgmin (l.map (fun x => x.getD 0))

/-- `sklearn.metrics.f1_score` of the predictions `score ≥ t` against the true
labels: `2·tp / (2·tp + fp + fn)`, defined as 0 when the denominator is 0
(sklearn's `zero_division` default emits a warning and yields 0.0). -/
def f1At (ys : List (ℚ × Bool)) (t : WithTop ℚ) : ℚ :=
  if (2 * tpAt ys t + fpAt ys t + fnAt ys t : ℕ) = 0 then 0
  else 2 * (tpAt ys t : ℚ) / ((2 * tpAt ys t + fpAt ys t + fnAt ys t : ℕ) : ℚ)

/-- `j_scores = tpr - fpr` (train.py line 97). -/
def j_scores (ys : List (ℚ × Bool)) : List (Option ℚ) := (rocThresholds ys).map (jAt ys)

/-- `optimal_idx_j = np.argmax(j_scores)` (train.py line 98). -/
def optimal_idx_j (ys : List (ℚ × Bool)) : ℕ := npArgmaxN (j_scores ys)

/-- `optimal_threshold_j = thresholds[optimal_idx_j]` (train.py line 99). -/
def optimal_threshold_j (ys : List (ℚ × Bool)) : WithTop ℚ :=
  (rocThresholds ys).getD (optimal_idx_j ys) ⊤

/-- `distances` (train.py line 102), squared as explained at `distSqAt`. -/
def distances_sq (ys : List (ℚ × Bool)) : List (Option ℚ) :=
  (rocThresholds ys).map (distSqAt ys)

/-- `optimal_idx_d = np.argmin(distances)` (train.py line 103). -/
def optimal_idx_d (ys : List (ℚ × Bool)) : ℕ := npArgminN (distances_sq ys)

/-- `optimal_threshold_d = thresholds[optimal_idx_d]` (train.py line 104). -/
def optimal_threshold_d (ys : List (ℚ × Bool)) : WithTop ℚ :=
  (rocThresholds ys).getD (optimal_idx_d ys) ⊤

/-- `f1_scores` computed for every ROC threshold (train.py lines 110–114). -/
def f1_scores (ys : List (ℚ × Bool)) : List ℚ := (rocThresholds ys).map (f1At ys)

/-- `optimal_idx_f1 = np.argmax(f1_scores)` (train.py line 116). -/
def optimal_idx_f1 (ys : List (ℚ × Bool)) : ℕ := npArgmax (f1_scores ys)

/-- `optimal_threshold_f1 = thresholds[optimal_idx_f1]` (train.py line 117). -/
def optimal_threshold_f1 (ys : List (ℚ × Bool)) : WithTop ℚ :=
  (rocThresholds ys).getD (optimal_idx_f1 ys) ⊤

/-- `sensitivity = tp / (tp + fn) if (tp + fn) > 0 else 0` (train.py line 127). -/
def sensitivityAt (ys : List (ℚ × Bool)) (t : WithTop ℚ) : ℚ :=
  if 0 < tpAt ys t + fnAt ys t
  then (tpAt ys t : ℚ) / ((tpAt ys t + fnAt ys t : ℕ) : ℚ) else 0

/-- `specificity = tn / (tn + fp) if (tn + fp) > 0 else 0` (train.py line 128). -/
def specificityAt (ys : List (ℚ × Bool)) (t : WithTop ℚ) : ℚ :=
  if 0 < tnAt ys t + fpAt ys t
  then (tnAt ys t : ℚ) / ((tnAt ys t + fpAt ys t : ℕ) : ℚ) else 0

/-- `precision_val = tp / (tp + fp) if (tp + fp) > 0 else 0` (train.py line 129). -/
def precisionAt (ys : List (ℚ × Bool)) (t : WithTop ℚ) : ℚ :=
  if 0 < tpAt ys t + fpAt ys t
  then (tpAt ys t : ℚ) / ((tpAt ys t + fpAt ys t : ℕ) : ℚ) else 0

/-- `y_pred = (y_score >= optimal_threshold).astype(int)` at a threshold `t`. -/
def y_predAt (ys : List (ℚ × Bool)) (t : WithTop ℚ) : List Bool :=
  ys.map (fun p => decide ((p.1 : WithTop ℚ) ≥ t))

/-- The `y_true` argument as a list of booleans. -/
def y_trueOf (ys : List (ℚ × Bool)) : List Bool := ys.map (fun p => p.2)

/-- The `metrics` dictionary built at train.py lines 132–141. -/
structure ThresholdMetrics where
  threshold_j : WithTop ℚ
  threshold_distance : WithTop ℚ
  threshold_f1 : WithTop ℚ
  sensitivity : ℚ
  specificity : ℚ
  precision : ℚ
  f1_score : ℚ
  youdens_j : Option ℚ
deriving DecidableEq

/-- The `metrics` dictionary value: every field exactly as assigned at
train.py lines 132–141 (`f1_score` is `f1_scores[optimal_idx_j]` and
`youdens_j` is `j_scores[optimal_idx_j]`, both at the *J*-optimal index). -/
def thresholdMetricsOf (ys : List (ℚ × Bool)) : ThresholdMetrics where
  threshold_j := optimal_threshold_j ys
  threshold_distance := optimal_threshold_d ys
  threshold_f1 := optimal_threshold_f1 ys
  sensitivity := sensitivityAt ys (optimal_threshold_j ys)
  specificity := specificityAt ys (optimal_threshold_j ys)
  precision := precisionAt ys (optimal_threshold_j ys)
  f1_score := (f1_scores ys).getD (optimal_idx_j ys) 0
  youdens_j := (j_scores ys).getD (optimal_idx_j ys) none

/-- `find_optimal_threshold` (train.py lines 73–143).  The only fallible step
is `tn, fp, fn, tp = confusion_matrix(y_true, y_pred).ravel()` (line 124):
`sklearn.metrics.confusion_matrix` builds its label set from the values
occurring in `y_true` or `y_pred`, so the matrix is 2×2 (and the 4-way unpack
succeeds) iff both boolean labels occur in `y_true ∪ y_pred`; otherwise the
unpack raises `ValueError`.  The unused `precision_recall_curve` call
(line 107, its three results are never read) is not modelled. -/
def find_optimal_threshold (ys : List (ℚ × Bool)) :
    Except String (WithTop ℚ × ThresholdMetrics) :=
  if (true ∈ y_trueOf ys ∨ true ∈ y_predAt ys (optimal_threshold_j ys)) ∧
     (false ∈ y_trueOf ys ∨ false ∈ y_predAt ys (optimal_threshold_j ys))
  then .ok (optimal_threshold_j ys, thresholdMetricsOf ys)
  else .error "not enough values to unpack (expected 4, got 1)"

/-- Area under the ROC curve by the trapezoidal rule (`sklearn.metrics.auc`). -/
def trapezoidArea : List (ℚ × ℚ) → ℚ
  | a :: b :: r => (b.1 - a.1) * (a.2 + b.2) / 2 + trapezoidArea (b :: r)
  | _ => 0

/-- The ROC points `(fpr, tpr)` in curve order (increasing FPR). -/
def rocPointsQ (ys : List (ℚ × Bool)) : List (ℚ × ℚ) :=
  (rocThresholds ys).map (fun t => (fprQ ys t, tprQ ys t))

/-- `sklearn.metrics.roc_auc_score`: raises
`ValueError("Only one class present in y_true. ...")` when `y_true` is
degenerate, otherwise the trapezoidal area under the ROC curve. -/
def roc_auc_score (ys : List (ℚ × Bool)) : Except String ℚ :=
  if 0 < totPos ys ∧ 0 < totNeg ys then .ok (trapezoidArea (rocPointsQ ys))
  else .error "Only one class present in y_true. ROC AUC score is not defined in that case."

/-- The metric stage of `evaluate_model` (train.py lines 384–392): after the
loss pass it computes `roc_auc_score(all_targets, all_preds)` and only then
calls `find_optimal_threshold` on the same vectors.  The loss accumulation is
omitted (it involves the transcendental `log` and does not influence this
control flow). -/
def evaluate_model_metrics (ys : List (ℚ × Bool)) :
    Except String (ℚ × WithTop ℚ × ThresholdMetrics) := do
  let auc ← roc_auc_score ys
  let r ← find_optimal_threshold ys
  pure (auc, r.1, r.2)

/-- Observer: does `find_optimal_threshold` return normally (no exception) with
a NaN `youdens_j` entry in its metrics dictionary? -/
def returnsNaNYoudensJ (ys : List (ℚ × Bool)) : Bool :=
  match find_optimal_threshold ys with
  | .ok (_, m) => m.youdens_j.isNone
  | .error _ => false

/-! ## Helper lemmas about `np.argmax` / `np.argmin` -/

lemma exists_max_q (l : List ℚ) (h : l ≠ []) : ∃ x ∈ l, ∀ y ∈ l, y ≤ x := by
  induction l with
  | nil => exact absurd rfl h
  | cons a t ih =>
    rcases eq_or_ne t [] with rfl | ht
    · exact ⟨a, List.mem_cons_self a [], by intro y hy; rcases List.mem_cons.1 hy with h' | h'
                                            exacts [le_of_eq h', absurd h' (List.not_mem_nil y)]⟩
    · obtain ⟨x, hx, hmax⟩ := ih ht
      rcases le_total x a with hc | hc
      · refine ⟨a, List.mem_cons_self a t, ?_⟩
        intro y hy
        rcases List.mem_cons.1 hy with h' | h'
        · exact le_of_eq h'
        · exact le_trans (hmax y h') hc
      · refine ⟨x, List.mem_cons_of_mem a hx, ?_⟩
        intro y hy
        rcases List.mem_cons.1 hy with h' | h'
        · exact h' ▸ hc
        · exact hmax y h'

lemma npArgmax_lt_length (l : List ℚ) (h : l ≠ []) : npArgmax l < l.length := by
  obtain ⟨x, hx, hmax⟩ := exists_max_q l h
  exact List.findIdx_lt_length_of_exists ⟨x, hx, by simpa using hmax⟩

lemma getD_le_getD_npArgmax (l : List ℚ) (i : ℕ) (hi : i < l.length) :
    l.getD i 0 ≤ l.getD (npArgmax l) 0 := by
  have hne : l ≠ [] := by intro h; rw [h] at hi; simp at hi
  have hlt := npArgmax_lt_length l hne
  have hp := List.findIdx_getElem (p := fun x => l.all (fun y => decide (y ≤ x))) (w := hlt)
  rw [List.getD_eq_getElem?_getD, List.getD_eq_getElem?_getD,
      List.getElem?_eq_getElem hi, List.getElem?_eq_getElem hlt]
  simp only [List.all_eq_true, decide_eq_true_eq] at hp
  exact hp _ (l.getElem_mem hi)

lemma getD_lt_getD_npArgmax (l : List ℚ) (i : ℕ) (hi : i < npArgmax l) :
    l.getD i 0 < l.getD (npArgmax l) 0 := by
  have hne : l ≠ [] := by
    intro h
    rw [h] at hi
    simp [npArgmax, List.findIdx_nil] at hi
  have hlt := npArgmax_lt_length l hne
  have hil : i < l.length := lt_trans hi hlt
  have hfail := List.not_of_lt_findIdx (p := fun x => l.all (fun y => decide (y ≤ x))) hi
  have hforall : ¬ ∀ y ∈ l, y ≤ l[i] := by
    intro hall
    have ht : (l.all (fun y => decide (y ≤ l[i]))) = true := by
      simp only [List.all_eq_true, decide_eq_true_eq]
      exact hall
    rw [hfail] at ht
    exact Bool.false_ne_true ht
  push_neg at hforall
  obtain ⟨y, hy, hylt⟩ := hforall
  have hp := List.findIdx_getElem (p := fun x => l.all (fun y => decide (y ≤ x))) (w := hlt)
  simp only [List.all_eq_true, decide_eq_true_eq] at hp
  rw [List.getD_eq_getElem?_getD, List.getD_eq_getElem?_getD,
      List.getElem?_eq_getElem hil, List.getElem?_eq_getElem hlt]
  exact lt_of_lt_of_le hylt (hp y hy)

lemma findIdx?_isNone_map_some (l : List ℚ) :
    ∀ i, List.findIdx? (fun x => x.isNone) (l.map some) i = none := by
  induction l with
  | nil => intro i; rfl
  | cons a t ih =>
    intro i
    simp only [List.map_cons, List.findIdx?_cons, Option.isNone_some, Bool.false_eq_true,
      if_false]
    exact ih (i + 1)

lemma npArgmaxN_map_some (l : List ℚ) : npArgmaxN (l.map some) = npArgmax l := by
  unfold npArgmaxN
  rw [findIdx?_isNone_map_some l 0]
  simp [List.map_map, Function.comp_def]

lemma map_getD_of_lt {α β : Type _} (f : α → β) (l : List α) (i : ℕ)
    (hi : i < l.length) (dα : α) (dβ : β) : (l.map f).getD i dβ = f (l.getD i dα) := by
  rw [List.getD_eq_getElem?_getD, List.getD_eq_getElem?_getD,
      List.getElem?_eq_getElem hi, List.getElem?_eq_getElem (by simpa using hi)]
  simp

/-! ## Behaviour of `find_optimal_threshold` on two-class inputs -/

lemma jAt_eq_some (ys : List (ℚ × Bool)) (hp : 0 < totPos ys) (hn : 0 < totNeg ys)
    (t : WithTop ℚ) : jAt ys t = some (jQ ys t) := by
  unfold jAt tprAt fprAt jQ tprQ fprQ
  rw [if_neg (Nat.pos_iff_ne_zero.1 hp), if_neg (Nat.pos_iff_ne_zero.1 hn)]
  rfl

lemma j_scores_eq (ys : List (ℚ × Bool)) (hp : 0 < totPos ys) (hn : 0 < totNeg ys) :
    j_scores ys = ((rocThresholds ys).map (jQ ys)).map some := by
  unfold j_scores
  rw [List.map_map]
  exact List.map_congr_left (fun t _ => jAt_eq_some ys hp hn t)

lemma optimal_idx_j_eq (ys : List (ℚ × Bool)) (hp : 0 < totPos ys) (hn : 0 < totNeg ys) :
    optimal_idx_j ys = npArgmax ((rocThresholds ys).map (jQ ys)) := by
  unfold optimal_idx_j
  rw [j_scores_eq ys hp hn, npArgmaxN_map_some]

lemma mem_y_trueOf_pos (ys : List (ℚ × Bool)) (hp : 0 < totPos ys) :
    true ∈ y_trueOf ys := by
  obtain ⟨p, hmem⟩ := List.exists_mem_of_length_pos hp
  have h := List.mem_filter.1 hmem
  exact List.mem_map.2 ⟨p, h.1, by simpa using h.2⟩

lemma mem_y_trueOf_neg (ys : List (ℚ × Bool)) (hn : 0 < totNeg ys) :
    false ∈ y_trueOf ys := by
  obtain ⟨p, hmem⟩ := List.exists_mem_of_length_pos hn
  have h := List.mem_filter.1 hmem
  exact List.mem_map.2 ⟨p, h.1, by simpa using h.2⟩

/-- With both classes present in `y_true`, the confusion matrix is always 2×2,
so `find_optimal_threshold` returns normally. -/
lemma find_optimal_threshold_eq_ok (ys : List (ℚ × Bool))
    (hp : 0 < totPos ys) (hn : 0 < totNeg ys) :
    find_optimal_threshold ys = .ok (optimal_threshold_j ys, thresholdMetricsOf ys) := by
  unfold find_optimal_threshold
  rw [if_pos ⟨Or.inl (mem_y_trueOf_pos ys hp), Or.inl (mem_y_trueOf_neg ys hn)⟩]

/-- **C1.** For every input with at least one positive and one negative label,
`find_optimal_threshold` returns Candidate A (Youden's J): the ROC threshold at
the first index maximising TPR − FPR (`np.argmax` first-occurrence
tie-breaking); the returned value equals the `threshold_j` field, and the
`f1_score` and `youdens_j` fields are the F1 and J values computed at that same
index. -/
theorem find_optimal_threshold_returns_youden (ys : List (ℚ × Bool))
    (hp : 0 < totPos ys) (hn : 0 < totNeg ys) :
    ∃ m : ThresholdMetrics,
      find_optimal_threshold ys = .ok (optimal_threshold_j ys, m) ∧
      m.threshold_j = optimal_threshold_j ys ∧
      m.youdens_j = some (jQ ys (optimal_threshold_j ys)) ∧
      m.f1_score = f1At ys (optimal_threshold_j ys) ∧
      optimal_idx_j ys < (rocThresholds ys).length ∧
      (∀ i, i < (rocThresholds ys).length →
        jQ ys ((rocThresholds ys).getD i ⊤) ≤ jQ ys (optimal_threshold_j ys)) ∧
      (∀ i, i < optimal_idx_j ys →
        jQ ys ((rocThresholds ys).getD i ⊤) < jQ ys (optimal_threshold_j ys)) := by
  have hlne : (rocThresholds ys).map (jQ ys) ≠ [] := by simp [rocThresholds]
  have hidx := optimal_idx_j_eq ys hp hn
  have hlt : optimal_idx_j ys < (rocThresholds ys).length := by
    rw [hidx]
    simpa using npArgmax_lt_length _ hlne
  refine ⟨thresholdMetricsOf ys, find_optimal_threshold_eq_ok ys hp hn, rfl, ?_, ?_, hlt,
    ?_, ?_⟩
  · show (j_scores ys).getD (optimal_idx_j ys) none = some (jQ ys (optimal_threshold_j ys))
    rw [j_scores_eq ys hp hn,
      map_getD_of_lt some _ _ (by simpa using hlt) 0 none,
      map_getD_of_lt (jQ ys) _ _ hlt ⊤ 0]
    rfl
  · show (f1_scores ys).getD (optimal_idx_j ys) 0 = f1At ys (optimal_threshold_j ys)
    unfold f1_scores
    rw [map_getD_of_lt (f1At ys) _ _ hlt ⊤ 0]
    rfl
  · intro i hi
    have h1 := getD_le_getD_npArgmax ((rocThresholds ys).map (jQ ys)) i (by simpa using hi)
    rw [map_getD_of_lt (jQ ys) _ i hi ⊤ 0, ← hidx,
      map_getD_of_lt (jQ ys) _ _ hlt ⊤ 0] at h1
    exact h1
  · intro i hi
    have hi' : i < npArgmax ((rocThresholds ys).map (jQ ys)) := hidx ▸ hi
    have h1 := getD_lt_getD_npArgmax ((rocThresholds ys).map (jQ ys)) i hi'
    have hil : i < (rocThresholds ys).length := lt_trans hi hlt
    rw [map_getD_of_lt (jQ ys) _ i hil ⊤ 0, ← hidx,
      map_getD_of_lt (jQ ys) _ _ hlt ⊤ 0] at h1
    exact h1

/-- Witness for C1 at the concrete input `[(2, pos), (1, neg)]`. -/
theorem find_optimal_threshold_returns_youden_witness :
    0 < totPos [((2 : ℚ), true), ((1 : ℚ), false)] ∧
    0 < totNeg [((2 : ℚ), true), ((1 : ℚ), false)] ∧
    ∃ m : ThresholdMetrics,
      find_optimal_threshold [((2 : ℚ), true), ((1 : ℚ), false)] =
        .ok (optimal_threshold_j [((2 : ℚ), true), ((1 : ℚ), false)], m) ∧
      m.threshold_j = optimal_threshold_j [((2 : ℚ), true), ((1 : ℚ), false)] :=
  ⟨by decide, by decide,
    (find_optimal_threshold_returns_youden [((2 : ℚ), true), ((1 : ℚ), false)]
      (by decide) (by decide)).elim (fun m hm => ⟨m, hm.1, hm.2.1⟩)⟩

/-- **C2.** For every input with at least one positive and one negative label,
each confusion-matrix-derived metric with a zero denominator at the chosen
threshold is defined as 0 — the function returns normally (no NaN, no
exception). -/
theorem find_optimal_threshold_zero_denominator (ys : List (ℚ × Bool))
    (hp : 0 < totPos ys) (hn : 0 < totNeg ys) :
    ∃ m : ThresholdMetrics,
      find_optimal_threshold ys = .ok (optimal_threshold_j ys, m) ∧
      (tpAt ys (optimal_threshold_j ys) + fnAt ys (optimal_threshold_j ys) = 0 →
        m.sensitivity = 0) ∧
      (tnAt ys (optimal_threshold_j ys) + fpAt ys (optimal_threshold_j ys) = 0 →
        m.specificity = 0) ∧
      (tpAt ys (optimal_threshold_j ys) + fpAt ys (optimal_threshold_j ys) = 0 →
        m.precision = 0) := by
  refine ⟨thresholdMetricsOf ys, find_optimal_threshold_eq_ok ys hp hn, ?_, ?_, ?_⟩
  · intro h
    show sensitivityAt ys (optimal_threshold_j ys) = 0
    unfold sensitivityAt
    rw [if_neg (by omega)]
  · intro h
    show specificityAt ys (optimal_threshold_j ys) = 0
    unfold specificityAt
    rw [if_neg (by omega)]
  · intro h
    show precisionAt ys (optimal_threshold_j ys) = 0
    unfold precisionAt
    rw [if_neg (by omega)]

/-- Witness for C2 at the concrete input `[(2, pos), (1, neg)]`. -/
theorem find_optimal_threshold_zero_denominator_witness :
    0 < totPos [((2 : ℚ), true), ((1 : ℚ), false)] ∧
    0 < totNeg [((2 : ℚ), true), ((1 : ℚ), false)] ∧
    ∃ m : ThresholdMetrics,
      find_optimal_threshold [((2 : ℚ), true), ((1 : ℚ), false)] =
        .ok (optimal_threshold_j [((2 : ℚ), true), ((1 : ℚ), false)], m) ∧
      (tpAt [((2 : ℚ), true), ((1 : ℚ), false)]
          (optimal_threshold_j [((2 : ℚ), true), ((1 : ℚ), false)]) +
        fpAt [((2 : ℚ), true), ((1 : ℚ), false)]
          (optimal_threshold_j [((2 : ℚ), true), ((1 : ℚ), false)]) = 0 →
        m.precision = 0) :=
  ⟨by decide, by decide,
    (find_optimal_threshold_zero_denominator [((2 : ℚ), true), ((1 : ℚ), false)]
      (by decide) (by decide)).elim (fun m hm => ⟨m, hm.1, hm.2.2.2⟩)⟩

/-- **C3 counterexample.** On the single-class input `[(1, pos)]` the function
`find_optimal_threshold` does *not* raise: it returns `.ok` with a NaN
(`none`) `youdens_j` field, contradicting the claim that a single-class input
makes the threshold optimizer fail rather than return a numerically undefined
result.  (In Python: `fpr` is all-NaN, `np.argmax` picks index 0, the sentinel
threshold; the confusion matrix is still 2×2 because `y_pred` contains 0s, so
the function returns with `youdens_j = nan`.) -/
theorem find_optimal_threshold_single_class_returns_nan :
    returnsNaNYoudensJ [((1 : ℚ), true)] = true := by decide

/-- **C3 (amended).** In the pipeline, single-class inputs do abort: the metric
stage of `evaluate_model` calls `roc_auc_score` *before* the threshold
optimizer, and sklearn's `roc_auc_score` raises `ValueError` on a single-class
`y_true`, so the run fails before any NaN threshold report is produced. -/
theorem evaluate_model_metrics_single_class_error (ys : List (ℚ × Bool))
    (h : totPos ys = 0 ∨ totNeg ys = 0) :
    evaluate_model_metrics ys =
      .error "Only one class present in y_true. ROC AUC score is not defined in that case." := by
  unfold evaluate_model_metrics roc_auc_score
  rw [if_neg]
  · rfl
  · rcases h with h | h <;> simp [h]

/-- Witness for the amended C3 at the concrete all-positive input `[(1, pos)]`. -/
theorem evaluate_model_metrics_single_class_error_witness :
    evaluate_model_metrics [((1 : ℚ), true)] =
      .error "Only one class present in y_true. ROC AUC score is not defined in that case." :=
  evaluate_model_metrics_single_class_error [((1 : ℚ), true)] (Or.inr (by decide))

/-! ## Corpus assembly (`load_mmpose_data`, train.py lines 146–244)

One MMPose JSON file is modelled by its parsed structure: the top-level
`instance_info` list of frame records, each holding a list of per-person
instances, each holding a `keypoints` array (a list of coordinate rows).  A
`.get(key, default)` access on a missing key is indistinguishable from the
default, so the defaults `[]` are folded into the structures; the `frame_id`
read at train.py line 192 is discarded by the source and not modelled.

`create_pose_graph` lives in `gnn.py`, outside `src/train.py`; the loader only
depends on whether it returns a graph or `None`, so it is an arbitrary
function parameter `cpg : List (List ℚ) → Option G`. -/

/-- One per-person record inside a frame: its `keypoints` array. -/
structure PoseInstance where
  keypoints : List (List ℚ)
deriving DecidableEq

/-- One frame record from the `instance_info` list. -/
structure FrameRecord where
  instances : List PoseInstance
deriving DecidableEq

/-- One parsed MMPose JSON file. -/
structure MMPoseFile where
  instance_info : List FrameRecord
deriving DecidableEq

/-- Processing of one instance (train.py lines 195–205): skip when
`keypoints` is empty (`if keypoints:`), otherwise build the graph and keep it
only when `create_pose_graph` did not return `None`. -/
def instanceGraph {G : Type _} (cpg : List (List ℚ) → Option G) (inst : PoseInstance) :
    Option G :=
  if inst.keypoints.isEmpty then none else cpg inst.keypoints

/-- The graphs contributed by one frame, in instance order. -/
def frameGraphs {G : Type _} (cpg : List (List ℚ) → Option G) (fr : FrameRecord) : List G :=
  fr.instances.filterMap (instanceGraph cpg)

/-- The graphs contributed by one file, in frame order then instance order. -/
def fileGraphs {G : Type _} (cpg : List (List ℚ) → Option G) (f : MMPoseFile) : List G :=
  f.instance_info.flatMap (frameGraphs cpg)

/-- `max(1, int(len(files) * sample_percentage / 100))` (train.py lines 180,
217).  Python's `int()` of the non-negative float quotient truncates towards
zero, i.e. floors; for the file counts and percentages in scope the float
computation is exact, so it is ℕ flooring division. -/
def numFilesToProcess (L p : ℕ) : ℕ := max 1 (L * p / 100)

/-- The per-directory prefix of files actually processed
(`files[:num_files]`, train.py lines 183–184 and 220–221). -/
def processedFiles (files : List MMPoseFile) (p : ℕ) : List MMPoseFile :=
  files.take (numFilesToProcess files.length p)

/-- `load_mmpose_data(violent_path, non_violent_path, sample_percentage)`
(train.py lines 146–244).  The two directory listings are the inputs; the
Python loop appends each produced graph together with its label (1.0 for the
violent directory, then 0.0 for the non-violent one) to the two parallel
result lists, which this definition produces directly.  The emptiness check of
the non-violent directory happens in the source only after the violent files
are processed; processing is pure, so the returned value is unchanged by
modelling both checks up front. -/
def load_mmpose_data {G : Type _} (cpg : List (List ℚ) → Option G)
    (violent_files non_violent_files : List MMPoseFile) (sample_percentage : ℤ) :
    Except String (List G × List ℚ) :=
  if ¬ (1 ≤ sample_percentage ∧ sample_percentage ≤ 100) then
    .error "sample_percentage must be between 1 and 100"
  else if violent_files = [] then
    .error "No JSON files found in violent directory"
  else if non_violent_files = [] then
    .error "No JSON files found in non-violent directory"
  else
    let vg := (processedFiles violent_files sample_percentage.toNat).flatMap (fileGraphs cpg)
    let ng := (processedFiles non_violent_files sample_percentage.toNat).flatMap (fileGraphs cpg)
    .ok (vg ++ ng, List.replicate vg.length 1 ++ List.replicate ng.length 0)

/-- A one-graph file fixture used by concrete witnesses: one frame with one
instance whose keypoint array is `[[1]]`. -/
def sampleFile : MMPoseFile := ⟨[⟨[⟨[[1]]⟩]⟩]⟩

/-- A builder fixture that accepts every keypoint array, producing graph `0`. -/
def sampleBuilder : List (List ℚ) → Option ℕ := fun _ => some 0

lemma numFilesToProcess_le (L p : ℕ) (hL : 1 ≤ L) (hp : p ≤ 100) :
    numFilesToProcess L p ≤ L := by
  unfold numFilesToProcess
  have h2 : L * p ≤ L * 100 := Nat.mul_le_mul_left L hp
  have h1 : L * p / 100 ≤ L :=
    calc L * p / 100 ≤ L * 100 / 100 := Nat.div_le_div_right h2
    _ = L := by omega
  exact max_le hL h1

lemma length_processedFiles (files : List MMPoseFile) (p : ℕ) (hne : files ≠ [])
    (hp : p ≤ 100) : (processedFiles files p).length = numFilesToProcess files.length p := by
  unfold processedFiles
  rw [List.length_take]
  exact min_eq_left (numFilesToProcess_le files.length p (List.length_pos.2 hne) hp)

lemma numFilesToProcess_100 (L : ℕ) (hL : 1 ≤ L) : numFilesToProcess L 100 = L := by
  unfold numFilesToProcess
  omega

lemma processedFiles_100 (files : List MMPoseFile) (hne : files ≠ []) :
    processedFiles files 100 = files := by
  unfold processedFiles
  rw [numFilesToProcess_100 files.length (List.length_pos.2 hne)]
  exact List.take_length files

/-- **C4 counterexample.** With 10 files in a directory and
`sample_percentage = 25`, the code processes `max(1, int(10*25/100)) = 2`
files, while the claimed ceil-at-least-one rule `max(1, ⌈10·25/100⌉) = 3`
demands 3: the truncation floors, it does not ceil. -/
theorem load_truncation_not_ceil :
    (processedFiles (List.replicate 10 (MMPoseFile.mk [])) 25).length = 2 ∧
    max 1 ⌈((10 : ℚ) * 25) / 100⌉₊ = 3 := by
  constructor
  · decide
  · have h : ⌈((10 : ℚ) * 25) / 100⌉₊ = 3 := by
      rw [Nat.ceil_eq_iff (by norm_num)]
      constructor <;> norm_num
    rw [h]
    decide

/-- **C4 (amended).** For a valid `sample_percentage` and non-empty
directories, each per-directory file list is truncated to
`max(1, ⌊L·P/100⌋)` files (floor-at-least-one, never zero), and
`load_mmpose_data` processes exactly that prefix of each directory. -/
theorem load_truncation_floor {G : Type _} (cpg : List (List ℚ) → Option G)
    (vf nvf : List MMPoseFile) (p : ℤ) (h1 : 1 ≤ p) (h2 : p ≤ 100)
    (hv : vf ≠ []) (hn : nvf ≠ []) :
    (processedFiles vf p.toNat).length = max 1 (vf.length * p.toNat / 100) ∧
    (processedFiles nvf p.toNat).length = max 1 (nvf.length * p.toNat / 100) ∧
    load_mmpose_data cpg vf nvf p =
      .ok ((processedFiles vf p.toNat).flatMap (fileGraphs cpg) ++
             (processedFiles nvf p.toNat).flatMap (fileGraphs cpg),
           List.replicate ((processedFiles vf p.toNat).flatMap (fileGraphs cpg)).length 1 ++
             List.replicate ((processedFiles nvf p.toNat).flatMap (fileGraphs cpg)).length 0) := by
  have hp100 : p.toNat ≤ 100 := by omega
  refine ⟨length_processedFiles vf p.toNat hv hp100,
    length_processedFiles nvf p.toNat hn hp100, ?_⟩
  unfold load_mmpose_data
  rw [if_neg (not_not_intro ⟨h1, h2⟩), if_neg hv, if_neg hn]

/-- Witness for the amended C4 with 10 violent files and P = 25:
`max 1 (10·25/100) = 2` files are processed. -/
theorem load_truncation_floor_witness :
    (processedFiles (List.replicate 10 sampleFile) (25 : ℤ).toNat).length =
      max 1 ((List.replicate 10 sampleFile).length * (25 : ℤ).toNat / 100) :=
  (load_truncation_floor sampleBuilder (List.replicate 10 sampleFile) [sampleFile] 25
    (by norm_num) (by norm_num) (by decide) (by decide)).1

/-- **C5.** With non-empty directories, `sample_percentage = 100` processes
every file of both directories, and `sample_percentage = 1` still processes at
least one file per directory. -/
theorem load_sampling_extremes {G : Type _} (cpg : List (List ℚ) → Option G)
    (vf nvf : List MMPoseFile) (hv : vf ≠ []) (hn : nvf ≠ []) :
    processedFiles vf 100 = vf ∧ processedFiles nvf 100 = nvf ∧
    1 ≤ (processedFiles vf 1).length ∧ 1 ≤ (processedFiles nvf 1).length ∧
    load_mmpose_data cpg vf nvf 100 =
      .ok (vf.flatMap (fileGraphs cpg) ++ nvf.flatMap (fileGraphs cpg),
           List.replicate (vf.flatMap (fileGraphs cpg)).length 1 ++
             List.replicate (nvf.flatMap (fileGraphs cpg)).length 0) := by
  have hmin : ∀ fs : List MMPoseFile, fs ≠ [] → 1 ≤ (processedFiles fs 1).length := by
    intro fs hne
    unfold processedFiles
    rw [List.length_take]
    exact le_min (le_max_left 1 _) (List.length_pos.2 hne)
  refine ⟨processedFiles_100 vf hv, processedFiles_100 nvf hn, hmin vf hv, hmin nvf hn, ?_⟩
  unfold load_mmpose_data
  rw [if_neg (not_not_intro ⟨by norm_num, by norm_num⟩), if_neg hv, if_neg hn]
  show Except.ok (_, _) = _
  rw [show ((100 : ℤ).toNat) = 100 from rfl, processedFiles_100 vf hv,
    processedFiles_100 nvf hn]

/-- Witness for C5 at one file per directory. -/
theorem load_sampling_extremes_witness :
    processedFiles [sampleFile] 100 = [sampleFile] ∧
    1 ≤ (processedFiles [sampleFile] 1).length :=
  ⟨(load_sampling_extremes sampleBuilder [sampleFile] [sampleFile]
      (by decide) (by decide)).1,
   (load_sampling_extremes sampleBuilder [sampleFile] [sampleFile]
      (by decide) (by decide)).2.2.1⟩

/-- **C6.** `load_mmpose_data` errors exactly when `sample_percentage` is
outside [1, 100] or one of the directories is empty — never because of file
contents; and an instance with empty keypoints, or one the builder rejects,
is silently skipped (appending it to a frame leaves the output unchanged). -/
theorem load_error_conditions {G : Type _} (cpg : List (List ℚ) → Option G)
    (vf nvf : List MMPoseFile) (p : ℤ) :
    ((load_mmpose_data cpg vf nvf p).isOk = true ↔
      (1 ≤ p ∧ p ≤ 100 ∧ vf ≠ [] ∧ nvf ≠ [])) ∧
    (∀ (fr : FrameRecord) (inst : PoseInstance),
      inst.keypoints = [] ∨ cpg inst.keypoints = none →
      frameGraphs cpg ⟨fr.instances ++ [inst]⟩ = frameGraphs cpg fr) := by
  constructor
  · by_cases hP : 1 ≤ p ∧ p ≤ 100
    · by_cases hv : vf = []
      · unfold load_mmpose_data
        rw [if_neg (not_not_intro hP), if_pos hv]
        simp only [Except.isOk, Except.toBool, Bool.false_eq_true, false_iff]
        tauto
      · by_cases hn : nvf = []
        · unfold load_mmpose_data
          rw [if_neg (not_not_intro hP), if_neg hv, if_pos hn]
          simp only [Except.isOk, Except.toBool, Bool.false_eq_true, false_iff]
          tauto
        · unfold load_mmpose_data
          rw [if_neg (not_not_intro hP), if_neg hv, if_neg hn]
          simp only [Except.isOk, Except.toBool, true_iff]
          exact ⟨hP.1, hP.2, hv, hn⟩
    · unfold load_mmpose_data
      rw [if_pos hP]
      simp only [Except.isOk, Except.toBool, Bool.false_eq_true, false_iff]
      tauto
  · intro fr inst h
    unfold frameGraphs
    rw [List.filterMap_append]
    have hnone : instanceGraph cpg inst = none := by
      rcases h with h | h
      · simp [instanceGraph, h]
      · simp [instanceGraph, h]
    simp [hnone]

/-- Witness for C6: a valid call returns `ok`, and an empty-keypoints instance
appended to a frame is skipped. -/
theorem load_error_conditions_witness :
    (load_mmpose_data sampleBuilder [sampleFile] [sampleFile] 50).isOk = true ∧
    frameGraphs sampleBuilder ⟨[PoseInstance.mk [[1]]] ++ [PoseInstance.mk []]⟩ =
      frameGraphs sampleBuilder ⟨[PoseInstance.mk [[1]]]⟩ :=
  ⟨(load_error_conditions sampleBuilder [sampleFile] [sampleFile] 50).1.mpr
      ⟨by norm_num, by norm_num, by decide, by decide⟩,
   (load_error_conditions sampleBuilder [sampleFile] [sampleFile] 50).2
      (FrameRecord.mk [PoseInstance.mk [[1]]]) (PoseInstance.mk []) (Or.inl rfl)⟩

/-- **C10.** A successful `load_mmpose_data` returns graph and label lists of
equal length; every label is 0 or 1; the graphs are the violent-directory
graphs followed by the non-violent ones; and position `i` carries label 1
exactly when graph `i` came from the violent directory (all violent graphs
precede all non-violent graphs). -/
theorem load_labels_structure {G : Type _} (cpg : List (List ℚ) → Option G)
    (vf nvf : List MMPoseFile) (p : ℤ) (g : List G) (l : List ℚ)
    (h : load_mmpose_data cpg vf nvf p = .ok (g, l)) :
    g.length = l.length ∧
    (∀ x ∈ l, x = 0 ∨ x = 1) ∧
    g = (processedFiles vf p.toNat).flatMap (fileGraphs cpg) ++
        (processedFiles nvf p.toNat).flatMap (fileGraphs cpg) ∧
    l = List.replicate ((processedFiles vf p.toNat).flatMap (fileGraphs cpg)).length 1 ++
        List.replicate ((processedFiles nvf p.toNat).flatMap (fileGraphs cpg)).length 0 ∧
    (∀ i, i < l.length →
      (l.getD i 0 = 1 ↔
        i < ((processedFiles vf p.toNat).flatMap (fileGraphs cpg)).length)) := by
  unfold load_mmpose_data at h
  by_cases hP : ¬ (1 ≤ p ∧ p ≤ 100)
  · rw [if_pos hP] at h
    exact Except.noConfusion h
  rw [if_neg hP] at h
  by_cases hv : vf = []
  · rw [if_pos hv] at h
    exact Except.noConfusion h
  rw [if_neg hv] at h
  by_cases hn : nvf = []
  · rw [if_pos hn] at h
    exact Except.noConfusion h
  rw [if_neg hn] at h
  obtain ⟨hg, hl⟩ := Prod.ext_iff.1 (Except.ok.inj h)
  subst hg hl
  set vg := (processedFiles vf p.toNat).flatMap (fileGraphs cpg) with hvg
  set ng := (processedFiles nvf p.toNat).flatMap (fileGraphs cpg) with hng
  refine ⟨by simp, ?_, rfl, rfl, ?_⟩
  · intro x hx
    rcases List.mem_append.1 hx with hx | hx
    · exact Or.inr (List.eq_of_mem_replicate hx)
    · exact Or.inl (List.eq_of_mem_replicate hx)
  · intro i hi
    rw [List.getD_eq_getElem?_getD, List.getElem?_append]
    by_cases hlt : i < vg.length
    · rw [if_pos (by simpa using hlt), List.getElem?_replicate, if_pos hlt]
      simpa using hlt
    · rw [if_neg (by simpa using hlt), List.getElem?_replicate]
      have hi' : i - (List.replicate vg.length (1 : ℚ)).length <
          (List.replicate ng.length (0 : ℚ)).length := by
        simp only [List.length_replicate]
        simp only [List.length_append, List.length_replicate] at hi
        omega
      rw [if_pos (by simpa using hi')]
      simp only [Option.getD_some]
      constructor
      · intro h0
        exact absurd h0.symm one_ne_zero
      · intro h0
        exact absurd h0 hlt

/-- Witness for C10: one file per directory, full sampling. -/
theorem load_labels_structure_witness :
    ([0, 0] : List ℕ).length = ([1, 0] : List ℚ).length ∧
    (∀ x ∈ ([1, 0] : List ℚ), x = 0 ∨ x = 1) :=
  ⟨(load_labels_structure sampleBuilder [sampleFile] [sampleFile] 100
      [0, 0] [1, 0] (by decide)).1,
   (load_labels_structure sampleBuilder [sampleFile] [sampleFile] 100
      [0, 0] [1, 0] (by decide)).2.1⟩

/-! ## Dataset splitting (the `train_test_split` calls of `main`, train.py
lines 466–475)

The index-selection randomness of sklearn's seeded splitters is abstracted
into an oracle: for every `(random_state, n)` it yields the ordering of
`range n` that the splitter's RNG realises.  sklearn documents that a fixed
integer `random_state` makes the selection a pure function of its arguments,
and that the selected train/test index sets partition `range n`; every such
selection is the take/drop of some ordering of `range n`, which is exactly
what `IsPermOracle` asserts.  The stratified first call and the plain second
call differ only in *which* ordering their RNGs realise, so they are two
oracles.  Membership-level properties proved for every permutation oracle
therefore hold for sklearn's concrete choice. -/

/-- The RNG index-ordering oracle of a seeded sklearn splitter. -/
structure SplitOracle where
  perm : ℕ → ℕ → List ℕ

/-- The oracle yields a permutation of `range n` for every seed and size. -/
def IsPermOracle (o : SplitOracle) : Prop :=
  ∀ seed n, (o.perm seed n).Perm (List.range n)

/-- The identity ordering, a valid permutation oracle used by witnesses. -/
def idOracle : SplitOracle := ⟨fun _ n => List.range n⟩

lemma idOracle_isPerm : IsPermOracle idOracle := fun _ _ => List.Perm.refl _

/-- Select the elements of `xs` at the given indices, in index order
(sklearn's `_safe_indexing`). -/
def selectIdx {α : Type _} (xs : List α) (idx : List ℕ) : List α :=
  idx.filterMap (fun i => xs[i]?)

/-- `sklearn.model_selection.train_test_split(xs, test_size=r,
random_state=seed)`: `n_test = ceil(r * n)` and `n_train = n - n_test`; the
permutation is split into the first `n_test` indices (test) and the remaining
`n_train` (train); the pair `(train, test)` is returned.  Ratio arithmetic is
exact rational; the ratios used by train.py (0.2 of 20 samples, 0.25 of 16)
are exact in binary floating point as well. -/
def train_test_split {α : Type _} (o : SplitOracle) (seed : ℕ) (test_size : ℚ)
    (xs : List α) : List α × List α :=
  let n_test := ⌈test_size * (xs.length : ℚ)⌉₊
  let p := o.perm seed xs.length
  (selectIdx xs (p.drop n_test), selectIdx xs (p.take n_test))

/-- The two-stage split of `main` (train.py lines 466–475): a stratified
train+val/test split, then a train/val split of the first part, both with
`random_state = RANDOM_SEED`.  Returns `(train, val, test)`. -/
def mainSplit {α : Type _} (o1 o2 : SplitOracle) (seed : ℕ)
    (test_ratio val_ratio : ℚ) (xs : List α) : List α × List α × List α :=
  let s1 := train_test_split o1 seed test_ratio xs
  let s2 := train_test_split o2 seed val_ratio s1.1
  (s2.1, s2.2, s1.2)

lemma isSome_getElem?_of_lt {α : Type _} (xs : List α) (i : ℕ) (h : i < xs.length) :
    (xs[i]?).isSome := by
  rw [List.getElem?_eq_getElem h]
  rfl

lemma selectIdx_range {α : Type _} (xs : List α) :
    selectIdx xs (List.range xs.length) = xs := by
  induction xs with
  | nil => rfl
  | cons x t ih =>
    unfold selectIdx at ih ⊢
    rw [List.length_cons, List.range_succ_eq_map, List.filterMap_cons]
    have hfun : ((fun i => (x :: t)[i]?) ∘ Nat.succ) = (fun i => t[i]?) := by
      funext i
      simp [List.getElem?_cons_succ]
    simp only [List.getElem?_cons_zero, List.filterMap_map, hfun, ih]

lemma selectIdx_perm {α : Type _} (xs : List α) (p : List ℕ)
    (hp : p.Perm (List.range xs.length)) : (selectIdx xs p).Perm xs := by
  have h := List.Perm.filterMap (fun i => xs[i]?) hp
  rw [show List.filterMap (fun i => xs[i]?) (List.range xs.length) = xs from
    selectIdx_range xs] at h
  exact h

lemma selectIdx_length {α : Type _} (xs : List α) (idx : List ℕ)
    (h : ∀ i ∈ idx, i < xs.length) : (selectIdx xs idx).length = idx.length := by
  unfold selectIdx
  rw [List.filterMap_length_eq_length]
  intro i hi
  exact isSome_getElem?_of_lt xs i (h i hi)

lemma mem_lt_of_perm_range {α : Type _} (xs : List α) (p : List ℕ)
    (hp : p.Perm (List.range xs.length)) : ∀ i ∈ p, i < xs.length := fun _ hi =>
  List.mem_range.1 (hp.mem_iff.1 hi)

/-- The two halves of one `train_test_split` recombine to the input corpus. -/
lemma train_test_split_partition {α : Type _} (o : SplitOracle) (ho : IsPermOracle o)
    (seed : ℕ) (r : ℚ) (xs : List α) :
    ((train_test_split o seed r xs).1 ++ (train_test_split o seed r xs).2).Perm xs := by
  unfold train_test_split selectIdx
  simp only
  have hp := ho seed xs.length
  have hperm : ((o.perm seed xs.length).drop ⌈r * (xs.length : ℚ)⌉₊ ++
      (o.perm seed xs.length).take ⌈r * (xs.length : ℚ)⌉₊).Perm
      (List.range xs.length) := by
    refine List.Perm.trans List.perm_append_comm ?_
    rw [List.take_append_drop]
    exact hp
  have hfinal := List.Perm.filterMap (fun i => xs[i]?) hperm
  rw [List.filterMap_append] at hfinal
  rw [show List.filterMap (fun i => xs[i]?) (List.range xs.length) = xs from
    selectIdx_range xs] at hfinal
  exact hfinal

lemma train_test_split_lengths {α : Type _} (o : SplitOracle) (ho : IsPermOracle o)
    (seed : ℕ) (r : ℚ) (xs : List α) :
    (train_test_split o seed r xs).2.length =
      min ⌈r * (xs.length : ℚ)⌉₊ xs.length ∧
    (train_test_split o seed r xs).1.length =
      xs.length - ⌈r * (xs.length : ℚ)⌉₊ := by
  have hp := ho seed xs.length
  have hlen : (o.perm seed xs.length).length = xs.length := by
    rw [hp.length_eq, List.length_range]
  have hmem := mem_lt_of_perm_range xs _ hp
  constructor
  · unfold train_test_split
    simp only
    rw [selectIdx_length xs _ (fun i hi => hmem i (List.mem_of_mem_take hi)),
      List.length_take, hlen]
  · unfold train_test_split
    simp only
    rw [selectIdx_length xs _ (fun i hi => hmem i (List.mem_of_mem_drop hi)),
      List.length_drop, hlen]

/-- **C7.** With the RNG modelled as a pure function of `(random_state, n)`
(sklearn's documented behaviour for a fixed integer seed), the two-stage split
is a pure function of seed and corpus: two runs on identical corpora with
identical seed and oracles produce identical train/val/test membership. -/
theorem mainSplit_deterministic {α : Type _} (o1 o2 : SplitOracle) (seed : ℕ)
    (test_ratio val_ratio : ℚ) (xs ys : List α) (h : xs = ys) :
    mainSplit o1 o2 seed test_ratio val_ratio xs =
      mainSplit o1 o2 seed test_ratio val_ratio ys := by
  rw [h]

/-- Witness for C7 on a concrete corpus. -/
theorem mainSplit_deterministic_witness :
    mainSplit idOracle idOracle 42 ((1 : ℚ)/5) ((1 : ℚ)/4) [0, 1, 2, 3, 4] =
      mainSplit idOracle idOracle 42 ((1 : ℚ)/5) ((1 : ℚ)/4) [0, 1, 2, 3, 4] :=
  mainSplit_deterministic idOracle idOracle 42 ((1 : ℚ)/5) ((1 : ℚ)/4)
    [0, 1, 2, 3, 4] [0, 1, 2, 3, 4] rfl

/-- **C8.** The two-stage split partitions the corpus (train ++ val ++ test is
a permutation of the input), and on a 20-sample corpus with
`test_split_ratio = 0.2` and `validation_split_ratio = 0.25` the sizes are
16/4 after the first split and 12/4 after the second. -/
theorem mainSplit_partition_and_sizes {α : Type _} (o1 o2 : SplitOracle)
    (h1 : IsPermOracle o1) (h2 : IsPermOracle o2) (seed : ℕ)
    (test_ratio val_ratio : ℚ) (xs : List α) :
    ((mainSplit o1 o2 seed test_ratio val_ratio xs).1 ++
      (mainSplit o1 o2 seed test_ratio val_ratio xs).2.1 ++
      (mainSplit o1 o2 seed test_ratio val_ratio xs).2.2).Perm xs ∧
    (xs.length = 20 → test_ratio = 1/5 → val_ratio = 1/4 →
      (train_test_split o1 seed test_ratio xs).1.length = 16 ∧
      (train_test_split o1 seed test_ratio xs).2.length = 4 ∧
      (mainSplit o1 o2 seed test_ratio val_ratio xs).1.length = 12 ∧
      (mainSplit o1 o2 seed test_ratio val_ratio xs).2.1.length = 4 ∧
      (mainSplit o1 o2 seed test_ratio val_ratio xs).2.2.length = 4) := by
  constructor
  · show ((train_test_split o2 seed val_ratio (train_test_split o1 seed test_ratio xs).1).1 ++
      (train_test_split o2 seed val_ratio (train_test_split o1 seed test_ratio xs).1).2 ++
      (train_test_split o1 seed test_ratio xs).2).Perm xs
    refine List.Perm.trans
      (List.Perm.append_right _ (train_test_split_partition o2 h2 seed val_ratio _)) ?_
    exact train_test_split_partition o1 h1 seed test_ratio xs
  · intro hlen htr hvr
    subst htr hvr
    have hk1 : ⌈(1/5 : ℚ) * (xs.length : ℚ)⌉₊ = 4 := by
      rw [hlen]
      rw [Nat.ceil_eq_iff (by norm_num)]
      constructor <;> norm_num
    have hl1 := train_test_split_lengths o1 h1 seed (1/5) xs
    have htv : (train_test_split o1 seed (1/5) xs).1.length = 16 := by
      rw [hl1.2, hk1, hlen]
    have hte : (train_test_split o1 seed (1/5) xs).2.length = 4 := by
      rw [hl1.1, hk1, hlen]
      decide
    have hk2 : ⌈(1/4 : ℚ) * (((train_test_split o1 seed (1/5) xs).1.length : ℕ) : ℚ)⌉₊ = 4 := by
      rw [htv]
      rw [Nat.ceil_eq_iff (by norm_num)]
      constructor <;> norm_num
    have hl2 := train_test_split_lengths o2 h2 seed (1/4) (train_test_split o1 seed (1/5) xs).1
    refine ⟨htv, hte, ?_, ?_, hte⟩
    · show (train_test_split o2 seed (1/4) (train_test_split o1 seed (1/5) xs).1).1.length = 12
      rw [hl2.2, hk2, htv]
    · show (train_test_split o2 seed (1/4) (train_test_split o1 seed (1/5) xs).1).2.length = 4
      rw [hl2.1, hk2, htv]
      decide

/-- Witness for C8 on a 20-element corpus with the identity oracle. -/
theorem mainSplit_partition_and_sizes_witness :
    ((mainSplit idOracle idOracle 42 (1/5) (1/4) (List.range 20)).1 ++
      (mainSplit idOracle idOracle 42 (1/5) (1/4) (List.range 20)).2.1 ++
      (mainSplit idOracle idOracle 42 (1/5) (1/4) (List.range 20)).2.2).Perm
      (List.range 20) ∧
    (mainSplit idOracle idOracle 42 (1/5) (1/4) (List.range 20)).1.length = 12 ∧
    (mainSplit idOracle idOracle 42 (1/5) (1/4) (List.range 20)).2.1.length = 4 ∧
    (mainSplit idOracle idOracle 42 (1/5) (1/4) (List.range 20)).2.2.length = 4 :=
  ⟨(mainSplit_partition_and_sizes idOracle idOracle idOracle_isPerm idOracle_isPerm
      42 (1/5) (1/4) (List.range 20)).1,
   ((mainSplit_partition_and_sizes idOracle idOracle idOracle_isPerm idOracle_isPerm
      42 (1/5) (1/4) (List.range 20)).2 (by simp) rfl rfl).2.2.1,
   ((mainSplit_partition_and_sizes idOracle idOracle idOracle_isPerm idOracle_isPerm
      42 (1/5) (1/4) (List.range 20)).2 (by simp) rfl rfl).2.2.2.1,
   ((mainSplit_partition_and_sizes idOracle idOracle idOracle_isPerm idOracle_isPerm
      42 (1/5) (1/4) (List.range 20)).2 (by simp) rfl rfl).2.2.2.2⟩

/-! ## Training-loop metric accumulation (`train_model`, train.py lines
247–343)

`train_model` builds the `metrics` dictionary: three lists, each appended to
exactly once per epoch, in epoch order.  The numeric content of one epoch
(forward/backward passes over the batches, loss averaging, the validation
`roc_auc_score`) is computed by the opaque model and tensor engine from
`model.py`, so one whole epoch body is abstracted as a `step` parameter: from
the current model/optimizer state it yields the next state and this epoch's
`(avg_train_loss, avg_val_loss, val_auc)` triple. -/

/-- The `metrics` dictionary of `train_model` (train.py line 274). -/
structure TrainMetrics where
  train_loss : List ℚ
  val_loss : List ℚ
  val_auc : List ℚ
deriving DecidableEq

/-- The epoch loop of `train_model` (train.py lines 277–343): for each of the
`num_epochs` epochs, run one epoch body and append its three metric values, in
epoch-completion order, to the three lists. -/
def train_model {σ : Type _} (step : σ → σ × ℚ × ℚ × ℚ) : ℕ → σ → TrainMetrics
  | 0, _ => ⟨[], [], []⟩
  | n + 1, s =>
    let r := step s
    let m := train_model step n r.1
    ⟨r.2.1 :: m.train_loss, r.2.2.1 :: m.val_loss, r.2.2.2 :: m.val_auc⟩

/-- The model/optimizer state after `n` completed epochs. -/
def stateAfter {σ : Type _} (step : σ → σ × ℚ × ℚ × ℚ) (s : σ) : ℕ → σ
  | 0 => s
  | n + 1 => (step (stateAfter step s n)).1

lemma stateAfter_shift {σ : Type _} (step : σ → σ × ℚ × ℚ × ℚ) (s : σ) (n : ℕ) :
    stateAfter step s (n + 1) = stateAfter step ((step s).1) n := by
  induction n with
  | zero => rfl
  | succ k ih =>
    show (step (stateAfter step s (k + 1))).1 = _
    rw [ih]
    rfl

lemma train_model_lengths {σ : Type _} (step : σ → σ × ℚ × ℚ × ℚ) :
    ∀ (E : ℕ) (s : σ),
      (train_model step E s).train_loss.length = E ∧
      (train_model step E s).val_loss.length = E ∧
      (train_model step E s).val_auc.length = E := by
  intro E
  induction E with
  | zero => intro s; exact ⟨rfl, rfl, rfl⟩
  | succ n ih =>
    intro s
    simp only [train_model, List.length_cons]
    exact ⟨by rw [(ih _).1], by rw [(ih _).2.1], by rw [(ih _).2.2]⟩

lemma train_model_take {σ : Type _} (step : σ → σ × ℚ × ℚ × ℚ) :
    ∀ (e E : ℕ) (s : σ), e ≤ E →
      (train_model step E s).train_loss.take e = (train_model step e s).train_loss ∧
      (train_model step E s).val_loss.take e = (train_model step e s).val_loss ∧
      (train_model step E s).val_auc.take e = (train_model step e s).val_auc := by
  intro e
  induction e with
  | zero => intro E s _; exact ⟨rfl, rfl, rfl⟩
  | succ k ih =>
    intro E s hle
    obtain ⟨E', rfl⟩ : ∃ E', E = E' + 1 := ⟨E - 1, by omega⟩
    have h := ih E' (step s).1 (by omega)
    simp only [train_model, List.take_succ_cons]
    exact ⟨by rw [h.1], by rw [h.2.1], by rw [h.2.2]⟩

lemma train_model_get {σ : Type _} (step : σ → σ × ℚ × ℚ × ℚ) :
    ∀ (i E : ℕ) (s : σ), i < E →
      (train_model step E s).train_loss[i]? = some (step (stateAfter step s i)).2.1 ∧
      (train_model step E s).val_loss[i]? = some (step (stateAfter step s i)).2.2.1 ∧
      (train_model step E s).val_auc[i]? = some (step (stateAfter step s i)).2.2.2 := by
  intro i
  induction i with
  | zero =>
    intro E s hE
    obtain ⟨E', rfl⟩ : ∃ E', E = E' + 1 := ⟨E - 1, by omega⟩
    refine ⟨?_, ?_, ?_⟩ <;> simp [train_model, stateAfter]
  | succ k ih =>
    intro E s hE
    obtain ⟨E', rfl⟩ : ∃ E', E = E' + 1 := ⟨E - 1, by omega⟩
    have h := ih E' (step s).1 (by omega)
    simp only [train_model, List.getElem?_cons_succ, stateAfter_shift]
    exact ⟨h.1, h.2.1, h.2.2⟩

/-- **C9.** `train_model` appends exactly one entry per completed epoch, in
epoch order, to each of `train_loss`, `val_loss` and `val_auc`: after `E`
epochs each list has length exactly `E`; the lists after `e ≤ E` epochs are
prefixes of the lists after `E` epochs (entries are appended, never modified
or removed); and entry `i` is exactly the triple produced by epoch `i`. -/
theorem train_model_metrics_per_epoch {σ : Type _} (step : σ → σ × ℚ × ℚ × ℚ)
    (E : ℕ) (s : σ) :
    (train_model step E s).train_loss.length = E ∧
    (train_model step E s).val_loss.length = E ∧
    (train_model step E s).val_auc.length = E ∧
    (∀ e, e ≤ E →
      (train_model step E s).train_loss.take e = (train_model step e s).train_loss ∧
      (train_model step E s).val_loss.take e = (train_model step e s).val_loss ∧
      (train_model step E s).val_auc.take e = (train_model step e s).val_auc) ∧
    (∀ i, i < E →
      (train_model step E s).train_loss[i]? = some (step (stateAfter step s i)).2.1 ∧
      (train_model step E s).val_loss[i]? = some (step (stateAfter step s i)).2.2.1 ∧
      (train_model step E s).val_auc[i]? = some (step (stateAfter step s i)).2.2.2) :=
  ⟨(train_model_lengths step E s).1, (train_model_lengths step E s).2.1,
   (train_model_lengths step E s).2.2,
   fun e he => train_model_take step e E s he,
   fun i hi => train_model_get step i E s hi⟩

/-- A concrete two-epoch `step` fixture for the C9 witness. -/
def sampleStep : ℕ → ℕ × ℚ × ℚ × ℚ := fun s => (s + 1, 1, 2, 3)

/-- Witness for C9 at `E = 2` with a concrete epoch body. -/
theorem train_model_metrics_per_epoch_witness :
    (train_model sampleStep 2 0).train_loss.length = 2 ∧
    (train_model sampleStep 2 0).val_loss.take 1 = (train_model sampleStep 1 0).val_loss ∧
    (train_model sampleStep 2 0).val_auc[1]? =
      some (sampleStep (stateAfter sampleStep 0 1)).2.2.2 :=
  ⟨(train_model_metrics_per_epoch sampleStep 2 0).1,
   ((train_model_metrics_per_epoch sampleStep 2 0).2.2.2.1 1 (by norm_num)).2.1,
   ((train_model_metrics_per_epoch sampleStep 2 0).2.2.2.2 1 (by norm_num)).2.2⟩

end ViolenceDetection
